import Mathlib

/-!
# Verification of the finance-dashboard categorization core

A shallow embedding, in Lean 4, of the categorization, override-key,
clustering and combined-view logic of the finance-dashboard repository
(`src/finance_dashboard/categorization/{rules,overrides,clusters}.py` and
`src/app.py`), together with theorems settling the specification claims
about that logic.

Modelling conventions:
* pandas `Series`/`DataFrame` columns become Lean `List`s; per-row
  vectorized operations become `List.map` / `List.foldl`.
* A value that can be missing (`NaN`/absent field) is an `Option`;
  `fillna("")` / `row.get(key, default)` become `Option.getD`.
* Python `dict`s (insertion-ordered) become association lists
  `List (key × value)` in insertion order; `dict.get` is first-match
  lookup (keys of a Python dict are pairwise distinct).
* Currency amounts are modelled as an exact number of cents (`Int`);
  `f"{x:.2f}"` becomes `formatCents`.
* Case folding (`str.lower`/`str.upper`, `re.IGNORECASE`) is modelled with
  character-wise ASCII case folding (`pyLower`/`pyUpper`), which agrees
  with Python on the ASCII range.
-/

set_option maxRecDepth 40000

namespace FinanceDashboard

/-! ## Python string primitives -/

/-- Python `s[:n]`: the first `n` code points of `s`. -/
def strTake (s : String) (n : Nat) : String :=
  ⟨s.data.take n⟩

/-- Python `s.replace("/", "-")`: for a one-character pattern this is a
character-wise replacement. -/
def replaceSlashes (s : String) : String :=
  ⟨s.data.map (fun c => if c == '/' then '-' else c)⟩

/-- Substring test on code-point lists (Python `needle in hay`). -/
def isSubstringList (needle : List Char) : List Char → Bool
  | [] => needle.isEmpty
  | c :: t => needle.isPrefixOf (c :: t) || isSubstringList needle t

/-- Python `sub in s` (case-sensitive substring containment). -/
def containsSub (s sub : String) : Bool :=
  isSubstringList sub.data s.data

/-- Python `s.lower()` (character-wise ASCII case folding, which agrees
with Python on the data the dashboard handles). -/
def pyLower (s : String) : String :=
  ⟨s.data.map Char.toLower⟩

/-- Python `s.upper()` (character-wise ASCII case folding). -/
def pyUpper (s : String) : String :=
  ⟨s.data.map Char.toUpper⟩

/-- Python's whitespace set for `str.strip()`. -/
def isPySpace (c : Char) : Bool :=
  c == ' ' || c == '\t' || c == '\n' || c == '\r' || c == '\x0b' || c == '\x0c'

/-- Python `s.strip()`: drop leading and trailing whitespace. -/
def pyStrip (s : String) : String :=
  ⟨((s.data.dropWhile isPySpace).reverse.dropWhile isPySpace).reverse⟩

/-! ## Dates and amounts -/

/-- A calendar date, as carried by the `Datum` column (`NaT` rows are
dropped by the loader before any of the modelled code runs, but the
override-key functions still handle a missing date). -/
structure Date where
  year : Nat
  month : Nat
  day : Nat
deriving DecidableEq, Repr

/-- Zero-padded two-digit rendering (for months, days, cents). -/
def pad2 (n : Nat) : String :=
  if n < 10 then "0" ++ toString n else toString n

/-- Zero-padded four-digit rendering (for years, as `strftime("%Y")`). -/
def pad4 (n : Nat) : String :=
  if n < 10 then "000" ++ toString n
  else if n < 100 then "00" ++ toString n
  else if n < 1000 then "0" ++ toString n
  else toString n

/-- Python `Datum.strftime("%Y-%m-%d")`. -/
def formatDate (d : Date) : String :=
  pad4 d.year ++ "-" ++ pad2 d.month ++ "-" ++ pad2 d.day

/-- Python `f"{x:.2f}"` for an amount given as an exact number of cents. -/
def formatCents (n : Int) : String :=
  let a := n.natAbs
  (if n < 0 then "-" else "") ++ toString (a / 100) ++ "." ++ pad2 (a % 100)

/-! ## MD5 (RFC 1321), as invoked through `hashlib.md5` in `overrides.py`

Machine words are `Nat`s reduced modulo `2 ^ 32` explicitly. -/

/-- Reduce to a 32-bit word. -/
def m32 (n : Nat) : Nat := n % 4294967296

/-- Bitwise 32-bit complement (operands are `< 2 ^ 32`). -/
def not32 (x : Nat) : Nat := x ^^^ 4294967295

/-- Left rotation of a 32-bit word. -/
def rotl32 (x s : Nat) : Nat :=
  m32 ((x <<< s) ||| (x >>> (32 - s)))

/-- The MD5 sine-derived constant table `K` (RFC 1321). -/
def md5K : List Nat :=
  [3614090360, 3905402710, 606105819, 3250441966, 4118548399, 1200080426, 2821735955, 4249261313,
   1770035416, 2336552879, 4294925233, 2304563134, 1804603682, 4254626195, 2792965006, 1236535329,
   4129170786, 3225465664, 643717713, 3921069994, 3593408605, 38016083, 3634488961, 3889429448,
   568446438, 3275163606, 4107603335, 1163531501, 2850285829, 4243563512, 1735328473, 2368359562,
   4294588738, 2272392833, 1839030562, 4259657740, 2763975236, 1272893353, 4139469664, 3200236656,
   681279174, 3936430074, 3572445317, 76029189, 3654602809, 3873151461, 530742520, 3299628645,
   4096336452, 1126891415, 2878612391, 4237533241, 1700485571, 2399980690, 4293915773, 2240044497,
   1873313359, 4264355552, 2734768916, 1309151649, 4149444226, 3174756917, 718787259, 3951481745]

/-- The MD5 per-round left-rotation amounts. -/
def md5S : List Nat :=
  [7, 12, 17, 22, 7, 12, 17, 22, 7, 12, 17, 22, 7, 12, 17, 22,
   5, 9, 14, 20, 5, 9, 14, 20, 5, 9, 14, 20, 5, 9, 14, 20,
   4, 11, 16, 23, 4, 11, 16, 23, 4, 11, 16, 23, 4, 11, 16, 23,
   6, 10, 15, 21, 6, 10, 15, 21, 6, 10, 15, 21, 6, 10, 15, 21]

/-- Little-endian byte decomposition, `k` bytes. -/
def toLEBytes : Nat → Nat → List Nat
  | 0, _ => []
  | k + 1, n => (n % 256) :: toLEBytes k (n / 256)

/-- Little-endian byte composition. -/
def fromLEBytes (l : List Nat) : Nat :=
  l.foldr (fun b acc => b + 256 * acc) 0

/-- MD5 padding: append `0x80`, zero bytes to 56 mod 64, then the bit
length as a 64-bit little-endian quantity. -/
def md5Pad (msg : List Nat) : List Nat :=
  let len := msg.length
  let zeros := (119 - (len % 64)) % 64
  msg ++ (128 :: List.replicate zeros 0) ++ toLEBytes 8 ((len * 8) % 18446744073709551616)

/-- Split a byte list into chunks of 64 bytes (fuel-driven structural
recursion; the fuel `l.length` is ample since every step consumes at
least one byte). -/
def chunks64Aux : Nat → List Nat → List (List Nat)
  | 0, _ => []
  | _, [] => []
  | fuel + 1, b :: rest => ((b :: rest).take 64) :: chunks64Aux fuel ((b :: rest).drop 64)

/-- Split a byte list into chunks of 64 bytes. -/
def chunks64 (l : List Nat) : List (List Nat) :=
  chunks64Aux l.length l

/-- The MD5 round function and message-word index for round `i`. -/
def md5FG (i b c d : Nat) : Nat × Nat :=
  if i < 16 then ((b &&& c) ||| (not32 b &&& d), i)
  else if i < 32 then ((d &&& b) ||| (not32 d &&& c), (5 * i + 1) % 16)
  else if i < 48 then (b ^^^ c ^^^ d, (3 * i + 5) % 16)
  else (c ^^^ (b ||| not32 d), (7 * i) % 16)

/-- One MD5 round on state `(a, b, c, d)` over chunk `m`. -/
def md5Round (m : List Nat) (st : Nat × Nat × Nat × Nat) (i : Nat) :
    Nat × Nat × Nat × Nat :=
  let (a, b, c, d) := st
  let (f, g) := md5FG i b c d
  let mg := fromLEBytes ((m.drop (4 * g)).take 4)
  let f' := m32 (f + a + md5K.getD i 0 + mg)
  (d, m32 (b + rotl32 f' (md5S.getD i 0)), b, c)

/-- Process one 64-byte chunk. -/
def md5Chunk (st : Nat × Nat × Nat × Nat) (m : List Nat) :
    Nat × Nat × Nat × Nat :=
  let (a0, b0, c0, d0) := st
  let (a, b, c, d) := (List.range 64).foldl (md5Round m) st
  (m32 (a0 + a), m32 (b0 + b), m32 (c0 + c), m32 (d0 + d))

/-- The 16-byte MD5 digest of a byte sequence. -/
def md5Bytes (msg : List Nat) : List Nat :=
  let (a, b, c, d) :=
    (chunks64 (md5Pad msg)).foldl md5Chunk (1732584193, 4023233417, 2562383102, 271733878)
  toLEBytes 4 a ++ toLEBytes 4 b ++ toLEBytes 4 c ++ toLEBytes 4 d

/-- A nibble as a lowercase hex character. -/
def hexDigit (n : Nat) : Char :=
  if n < 10 then Char.ofNat (48 + n) else Char.ofNat (87 + n)

/-- A byte as two lowercase hex characters. -/
def byteToHex (b : Nat) : List Char :=
  [hexDigit (b / 16), hexDigit (b % 16)]

/-- UTF-8 encoding of one code point, as byte values. -/
def utf8Encode (c : Char) : List Nat :=
  let n := c.toNat
  if n < 128 then [n]
  else if n < 2048 then [192 + n / 64, 128 + n % 64]
  else if n < 65536 then [224 + n / 4096, 128 + (n / 64) % 64, 128 + n % 64]
  else [240 + n / 262144, 128 + (n / 4096) % 64, 128 + (n / 64) % 64, 128 + n % 64]

/-- Python `s.encode()`: the UTF-8 bytes of a string. -/
def utf8Bytes (s : String) : List Nat :=
  (s.data.map utf8Encode).flatten

/-- Python `hashlib.md5(s.encode()).hexdigest()`. -/
def md5Hex (s : String) : String :=
  ⟨((md5Bytes (utf8Bytes s)).map byteToHex).flatten⟩

/-- RFC 1321 test vector: the digest of the empty message. -/
theorem md5Hex_empty : md5Hex "" = "d41d8cd98f00b204e9800998ecf8427e" := by decide

/-- RFC 1321 test vector: the digest of `"abc"`. -/
theorem md5Hex_abc : md5Hex "abc" = "900150983cd24fb0d6963f7d28e17f72" := by decide

/-! ## Rule store (`categories.json` document)

`rules` maps category names to keyword lists, `iban_rules` maps IBANs to
category names; both are Python dicts, modelled as association lists in
insertion order. -/

/-- The rule-store sections consumed by the categorizer. -/
structure CategoriesConfig where
  rules : List (String × List String)
  ibanRules : List (String × String)
deriving DecidableEq, Repr

/-! ## Categorizer (`categorization/rules.py`, `categorize_transactions_vectorized`)

The pandas implementation is vectorized over a whole frame, but every
operation it performs (`fillna`, `+`, `str.lower`, `str.contains`,
`Series.where`, `==`) acts row-wise, so the batch function is the `map`
of a per-row function. -/

/-- A checking-account (Girokonto) row, as used by the categorizer. -/
structure GiroRow where
  Zahlungsempfaenger : Option String
  Verwendungszweck : Option String
  IBAN : Option String
deriving DecidableEq, Repr

/-- A Visa (credit-card) row, as used by the categorizer. -/
structure VisaRow where
  Beschreibung : Option String
deriving DecidableEq, Repr

/-- The match text of a Girokonto row:
`(emp + " " + zweck).str.lower()` with `fillna("")` on both fields. -/
def matchTextGiro (r : GiroRow) : String :=
  pyLower ((r.Zahlungsempfaenger.getD "") ++ " " ++ (r.Verwendungszweck.getD ""))

/-- The match text of a Visa row: `Beschreibung.fillna("").str.lower()`. -/
def matchTextVisa (r : VisaRow) : String :=
  pyLower (r.Beschreibung.getD "")

/-- Pandas `desc.str.contains("|".join(re.escape(k) for k in kws), case=False)`:
the keywords are regex-escaped, so this is true iff some keyword occurs in
the text as a case-insensitive substring. -/
def keywordAny (desc : String) (kws : List String) : Bool :=
  kws.any (fun k => containsSub (pyLower desc) (pyLower k))

/-- One iteration of the keyword-rule loop: `if not keywords: continue`,
then reassign the row exactly when its keywords match and the row still
holds the sentinel
(`categories.where(~mask | (categories != "Sonstiges"), category)`). -/
def keywordStep (desc : String) (cat : String) (cr : String × List String) : String :=
  if cr.2.isEmpty then cat
  else if keywordAny desc cr.2 ∧ cat = "Sonstiges" then cr.1 else cat

/-- The keyword-rule loop of `categorize_transactions_vectorized`: start
from the sentinel `"Sonstiges"` and iterate the rule categories in
declaration order. -/
def applyKeywordRules (rules : List (String × List String)) (desc : String) : String :=
  rules.foldl (keywordStep desc) "Sonstiges"

/-- One iteration of the IBAN-rule loop: unconditionally reassign every
row whose uppercased IBAN equals the uppercased key
(`categories.where(~mask, category)`). -/
def ibanStep (ibanUpper : String) (acc : String) (kc : String × String) : String :=
  if ibanUpper = pyUpper kc.1 then kc.2 else acc

/-- The IBAN-rule loop (`if iban_rules:` guard, then one pass per pair). -/
def applyIbanRules (ibanRules : List (String × String)) (ibanUpper : String)
    (cat : String) : String :=
  if ibanRules.isEmpty then cat
  else ibanRules.foldl (ibanStep ibanUpper) cat

/-- Category of one Girokonto row (`is_visa=False`); `hasIbanCol` models
the `"IBAN" in df.columns` test (the loader always provides the column). -/
def categorizeGiroRow (cfg : CategoriesConfig) (hasIbanCol : Bool) (r : GiroRow) : String :=
  let base := applyKeywordRules cfg.rules (matchTextGiro r)
  if hasIbanCol then applyIbanRules cfg.ibanRules (pyUpper (r.IBAN.getD "")) base else base

/-- Category of one Visa row (`is_visa=True`): keyword rules only, the
IBAN block is skipped. -/
def categorizeVisaRow (cfg : CategoriesConfig) (r : VisaRow) : String :=
  applyKeywordRules cfg.rules (matchTextVisa r)

/-- The whole-batch `categorize_transactions_vectorized` on a Girokonto frame. -/
def categorizeGiroBatch (cfg : CategoriesConfig) (hasIbanCol : Bool)
    (df : List GiroRow) : List String :=
  df.map (categorizeGiroRow cfg hasIbanCol)

/-- The whole-batch `categorize_transactions_vectorized` on a Visa frame. -/
def categorizeVisaBatch (cfg : CategoriesConfig) (df : List VisaRow) : List String :=
  df.map (categorizeVisaRow cfg)

/-- The category the spec's first-match-wins description assigns: the
first category in declaration order whose keyword list matches. -/
def firstKeywordCategory (rules : List (String × List String)) (desc : String) :
    Option String :=
  (rules.find? (fun cr => keywordAny desc cr.2)).map (fun cr => cr.1)

/-! ## Override keys (`categorization/overrides.py`) -/

/-- A combined-view transaction row (`app.py` `prepare_combined_data`):
`Datum`, `Betrag`, `Kategorie`, `Konto`, `Monat` plus the synthesized
`Beschreibung`. `Option` marks values that can be missing (`NaT` dates,
an absent description field, an absent amount). -/
structure TxRow where
  Datum : Option Date
  Betrag : Option Int
  Kategorie : String
  Konto : String
  Monat : String
  Beschreibung : Option String
deriving DecidableEq, Repr

/-- Source `get_override_key(row)`:
`f"{date_str}_{md5(desc.encode()).hexdigest()[:12]}_{betrag:.2f}"` with
`date_str = Datum.strftime("%Y-%m-%d")` if the date is present else
`"unknown"`, `desc = row.get("Beschreibung", "")` and
`betrag = row.get("Betrag", 0)`. -/
def get_override_key (row : TxRow) : String :=
  let date_str := match row.Datum with
    | some d => formatDate d
    | none => "unknown"
  let desc := row.Beschreibung.getD ""
  let amount := formatCents (row.Betrag.getD 0)
  let desc_hash := strTake (md5Hex desc) 12
  date_str ++ "_" ++ desc_hash ++ "_" ++ amount

/-- Source `get_legacy_override_key(row)`: same date and amount segments, but the
middle segment is `str(desc)[:30].replace("/", "-")`. -/
def get_legacy_override_key (row : TxRow) : String :=
  let date_str := match row.Datum with
    | some d => formatDate d
    | none => "unknown"
  let desc := replaceSlashes (strTake (row.Beschreibung.getD "") 30)
  let amount := formatCents (row.Betrag.getD 0)
  date_str ++ "_" ++ desc ++ "_" ++ amount

/-- The first 12 hex characters of the MD5 digest of a description, the
`hash12` of the spec's current-key formula. -/
def hash12 (desc : String) : String :=
  strTake (md5Hex desc) 12

/-- The current override key as the spec words it:
`"{date:YYYY-MM-DD}_{hash12}_{amount:.2f}"`, with `"unknown"` for a
missing date, the hash of `""` for a missing description and `0.00` for a
missing amount. -/
def specCurrentKey (row : TxRow) : String :=
  (match row.Datum with
    | some d => formatDate d
    | none => "unknown")
    ++ "_" ++ hash12 (row.Beschreibung.getD "")
    ++ "_" ++ formatCents (row.Betrag.getD 0)

/-! ## Combined-view assembly steps (`app.py`, `prepare_combined_data`) -/

/-- Python `dict.get(k)` on an association list (dict keys are pairwise
distinct, so first match is the match). -/
def dictGet (d : List (String × String)) (k : String) : Option String :=
  match d with
  | [] => none
  | kv :: rest => if k = kv.1 then some kv.2 else dictGet rest k

/-- The per-row override lookup:
`overrides.get(new_key, overrides.get(legacy_key, row["Kategorie"]))`. -/
def overrideRow (overrides : List (String × String)) (r : TxRow) : TxRow :=
  { r with
    Kategorie :=
      (dictGet overrides (get_override_key r)).getD
        ((dictGet overrides (get_legacy_override_key r)).getD r.Kategorie) }

/-- The manual-override step: guarded by `if cat_config_overrides:`; when
the overrides dict is non-empty, rewrite every row's category by the pure
double lookup (the helper `_override_key`/`_legacy_key` columns are added
and dropped again and are not modelled as columns). -/
def applyOverrides (overrides : List (String × String)) (rows : List TxRow) : List TxRow :=
  if overrides.isEmpty then rows else rows.map (overrideRow overrides)

/-- The settlement test for one row:
`any(pattern in x for pattern in cc_settlement_patterns)` with `x` the
lower-cased description. -/
def settlementHit (patterns : List String) (r : TxRow) : Bool :=
  patterns.any (fun p => containsSub (pyLower (r.Beschreibung.getD "")) p)

/-- The settlement reclassification for one row:
`combined_df.loc[cc_settlement_mask, "Kategorie"] = "Kreditkarte"`. -/
def settleRow (patterns : List String) (r : TxRow) : TxRow :=
  if settlementHit patterns r then { r with Kategorie := "Kreditkarte" } else r

/-- The settlement step over the whole frame. -/
def applySettlement (patterns : List String) (rows : List TxRow) : List TxRow :=
  rows.map (settleRow patterns)

/-- Steps 3 and 4 of `prepare_combined_data` in program order: manual
overrides first, then settlement reclassification. -/
def overridesThenSettlement (overrides : List (String × String))
    (patterns : List String) (rows : List TxRow) : List TxRow :=
  applySettlement patterns (applyOverrides overrides rows)

/-- The sort key of a row: its date, linearized (missing dates sort
first ascending, hence last after the descending reversal, matching
pandas' `na_position="last"`; the loader has already dropped them). -/
def datumKey (r : TxRow) : Nat :=
  match r.Datum with
  | some d => d.year * 10000 + d.month * 100 + d.day
  | none => 0

/-- Pandas `combined_df.sort_values("Datum", ascending=False)`: for a
descending sort, `pandas.core.sorting.nargsort` reverses the values and
the index *before* taking a stable ascending argsort and reverses the
resulting indexer *after* (`non_nans = non_nans[::-1]`,
`non_nan_idx = non_nan_idx[::-1]`, then `indexer = indexer[::-1]`; GH
6399), so the output is `reverse (stableAscendingSort (reverse rows))` —
a descending sort whose equal-key rows keep their original relative
order.  The stable ascending sort is modelled by insertion sort, matching
numpy's stable small-batch insertion-sort regime and the tie behavior
pandas' own regression tests pin down. -/
def sortByDatumDesc (rows : List TxRow) : List TxRow :=
  (List.insertionSort (fun a b => datumKey a ≤ datumKey b) rows.reverse).reverse

/-- Every field of a row except the mutable `Kategorie`. -/
def frameOf (r : TxRow) :
    Option Date × Option Int × String × String × Option String :=
  (r.Datum, r.Betrag, r.Konto, r.Monat, r.Beschreibung)

/-! ## Description clustering (`categorization/clusters.py`)

A cluster pattern is regex-escaped except that `*` becomes `.*` and the
match is `re.search` with `re.IGNORECASE`. Splitting the pattern at its
`*` wildcards leaves literal segments; the compiled regex matches a text
iff the segments occur in order, with only non-newline characters between
consecutive segments (`.` does not match a newline), anywhere in the
text. -/

/-- Python `p.split("*")` on code-point lists. -/
def splitOnStar (l : List Char) : List (List Char) :=
  match l with
  | [] => [[]]
  | c :: t =>
    let r := splitOnStar t
    if c == '*' then [] :: r
    else
      match r with
      | [] => [[c]]
      | h :: t2 => (c :: h) :: t2

/-- Python `re.search` of the segment list against a text, fuel-driven: find the
first segment somewhere (the text before a match is unconstrained, so the
leading gap may cross newlines when `allowNL` is true), then each later
segment after the previous one with a newline-free gap in between.  Every
step consumes a segment or a character, so `t.length + segs.length + 1`
fuel never runs out. -/
def segsSearchAux : Nat → List (List Char) → List Char → Bool → Bool
  | 0, _, _, _ => false
  | fuel + 1, segs, t, allowNL =>
    match segs with
    | [] => true
    | s :: ss =>
      (s.isPrefixOf t && segsSearchAux fuel ss (t.drop s.length) false)
        || match t with
           | [] => false
           | c :: rest => (allowNL || !(c == '\n')) && segsSearchAux fuel (s :: ss) rest allowNL

/-- Python `re.search` of the segment list against a text. -/
def segsSearch (segs : List (List Char)) (t : List Char) (allowNL : Bool) : Bool :=
  segsSearchAux (t.length + segs.length + 1) segs t allowNL

/-- One compiled cluster pattern applied to a text:
`re.compile(re.escape(p).replace(r"\*", ".*"), re.IGNORECASE).search(text)`. -/
def patternMatches (pattern text : String) : Bool :=
  segsSearch (splitOnStar (pyLower pattern).data) (pyLower text).data true

/-- Source `_compile_cluster_rules`: strip labels and patterns, drop empty ones;
keep only clusters that retain at least one pattern. -/
def compileClusterRules (clusterRules : List (String × List String)) :
    List (String × List String) :=
  clusterRules.foldr
    (fun lp acc =>
      let label := pyStrip lp.1
      if label = "" then acc
      else
        let patterns := (lp.2.map pyStrip).filter (fun p => p ≠ "")
        if patterns.isEmpty then acc else (label, patterns) :: acc)
    []

/-- Source `apply_description_clusters(descriptions, cluster_rules)`: with no
compiled rules the input series is returned unchanged (nulls included);
otherwise each description (null read as `""`) is mapped to the label of
the first cluster one of whose patterns matches, or to itself. -/
def apply_description_clusters (descriptions : List (Option String))
    (clusterRules : List (String × List String)) : List (Option String) :=
  let compiled := compileClusterRules clusterRules
  if compiled.isEmpty then descriptions
  else
    descriptions.map (fun d =>
      let text := d.getD ""
      some (match compiled.find? (fun lp => lp.2.any (fun p => patternMatches p text)) with
        | some lp => lp.1
        | none => text))

/-! ## Keyword-loop lemmas -/

/-- Once a row holds a non-sentinel category, the keyword loop never
changes it again (later keyword categories cannot reassign). -/
theorem keywordLoop_stay (desc : String) (rules : List (String × List String))
    (cat : String) (h : cat ≠ "Sonstiges") :
    rules.foldl (keywordStep desc) cat = cat := by
  induction rules with
  | nil => rfl
  | cons hd tl ih =>
    have hstep : keywordStep desc cat hd = cat := by
      unfold keywordStep
      split
      · rfl
      · rw [if_neg (fun hc => h hc.2)]
    rw [List.foldl_cons, hstep, ih]

/-- When no rule category is itself named `"Sonstiges"`, the keyword loop
computes exactly the first matching category in declaration order, with
the sentinel as fallback. -/
theorem applyKeywordRules_eq_first (rules : List (String × List String)) (desc : String)
    (h : "Sonstiges" ∉ rules.map Prod.fst) :
    applyKeywordRules rules desc = (firstKeywordCategory rules desc).getD "Sonstiges" := by
  induction rules with
  | nil => rfl
  | cons hd tl ih =>
    simp only [List.map_cons, List.mem_cons] at h
    push_neg at h
    obtain ⟨hc, htl⟩ := h
    by_cases hk : keywordAny desc hd.2 = true
    · have hkne : hd.2.isEmpty = false := by
        cases hsnd : hd.2 with
        | nil => rw [hsnd] at hk; simp [keywordAny] at hk
        | cons x xs => rfl
      have hstep : keywordStep desc "Sonstiges" hd = hd.1 := by
        simp [keywordStep, hkne, hk]
      unfold applyKeywordRules
      rw [List.foldl_cons, hstep, keywordLoop_stay desc tl hd.1 (Ne.symm hc)]
      unfold firstKeywordCategory
      rw [show List.find? (fun cr => keywordAny desc cr.2) (hd :: tl) = some hd from
        List.find?_cons_of_pos _ hk]
      rfl
    · have hstep : keywordStep desc "Sonstiges" hd = "Sonstiges" := by
        unfold keywordStep
        split
        · rfl
        · rw [if_neg (fun hcon => hk hcon.1)]
      unfold applyKeywordRules
      rw [List.foldl_cons, hstep]
      unfold firstKeywordCategory
      rw [show List.find? (fun cr => keywordAny desc cr.2) (hd :: tl)
            = List.find? (fun cr => keywordAny desc cr.2) tl from
        List.find?_cons_of_neg _ hk]
      exact ih htl

/-! ## Claim C1 -/

/-- Claim C1, counterexample. The claim quantifies over every rule store,
but a rule store may declare a category literally named `"Sonstiges"`
(the sentinel): the loop then assigns it and, because the row still
"holds the sentinel", a later category reassigns the row.  Here the first
matching category in declaration order is `"Sonstiges"`, yet the
categorizer returns `"B"`. -/
theorem C1_counterexample :
    categorizeGiroRow ⟨[("Sonstiges", ["x"]), ("B", ["x"])], []⟩ true
      ⟨some "x", none, none⟩ = "B" ∧
    firstKeywordCategory [("Sonstiges", ["x"]), ("B", ["x"])]
      (matchTextGiro ⟨some "x", none, none⟩) = some "Sonstiges" := by
  decide

/-- Claim C1, amended. Provided no rule category is itself named the
sentinel `"Sonstiges"`, the keyword loop assigns every transaction the
first category, in declaration order, whose keyword list matches the
transaction's match text case-insensitively (sentinel if none matches);
in particular the card-source categorizer does so on the lower-cased
description.  Once assigned, later keyword categories never reassign
(`keywordLoop_stay`). -/
theorem C1_first_match_wins :
    (∀ (rules : List (String × List String)) (desc : String),
      "Sonstiges" ∉ rules.map Prod.fst →
      applyKeywordRules rules desc = (firstKeywordCategory rules desc).getD "Sonstiges") ∧
    (∀ (cfg : CategoriesConfig) (r : VisaRow),
      "Sonstiges" ∉ cfg.rules.map Prod.fst →
      categorizeVisaRow cfg r
        = (firstKeywordCategory cfg.rules (matchTextVisa r)).getD "Sonstiges") :=
  ⟨fun rules desc h => applyKeywordRules_eq_first rules desc h,
   fun cfg r h => applyKeywordRules_eq_first cfg.rules (matchTextVisa r) h⟩

/-- Claim C1, witness. The spec's priority example: rules
`{"A": ["test"], "B": ["test keyword"]}` on `"test keyword here"` give
`"A"` — the first declared category with a match, not the most specific
one. -/
theorem C1_witness :
    ("Sonstiges" ∉ ([("A", ["test"]), ("B", ["test keyword"])].map Prod.fst)) ∧
    applyKeywordRules [("A", ["test"]), ("B", ["test keyword"])] "test keyword here"
      = (firstKeywordCategory [("A", ["test"]), ("B", ["test keyword"])]
          "test keyword here").getD "Sonstiges" ∧
    applyKeywordRules [("A", ["test"]), ("B", ["test keyword"])] "test keyword here" = "A" :=
  ⟨by decide, C1_first_match_wins.1 _ _ (by decide), by decide⟩

/-! ## IBAN-loop lemmas -/

/-- Rows matching no IBAN rule keep their keyword category. -/
theorem ibanLoop_skip (x : String) (l : List (String × String)) (acc : String)
    (h : ∀ kc ∈ l, x ≠ pyUpper kc.1) :
    l.foldl (ibanStep x) acc = acc := by
  induction l with
  | nil => rfl
  | cons hd tl ih =>
    have hstep : ibanStep x acc hd = acc := by
      unfold ibanStep
      rw [if_neg (h hd (List.mem_cons_self _ _))]
    rw [List.foldl_cons, hstep]
    exact ih (fun kc hkc => h kc (List.mem_cons_of_mem _ hkc))

/-- A row whose uppercased IBAN equals the uppercased key of a rule is
assigned that rule's category, whatever the accumulator holds, provided
the (normalized) rule keys are distinct. -/
theorem ibanLoop_hit (x : String) (l : List (String × String))
    (hnd : (l.map (fun kc => pyUpper kc.1)).Nodup) (k c : String)
    (hmem : (k, c) ∈ l) (hx : x = pyUpper k) :
    ∀ acc, l.foldl (ibanStep x) acc = c := by
  induction l with
  | nil => cases hmem
  | cons hd tl ih =>
    rw [List.map_cons, List.nodup_cons] at hnd
    obtain ⟨hhd, htl⟩ := hnd
    intro acc
    rcases List.mem_cons.mp hmem with heq | hmemtl
    · have hk1 : k = hd.1 := congrArg Prod.fst heq
      have hstep : ibanStep x acc hd = c := by
        unfold ibanStep
        rw [if_pos (by rw [← hk1]; exact hx)]
        exact (congrArg Prod.snd heq).symm
      rw [List.foldl_cons, hstep]
      apply ibanLoop_skip
      intro kc hkc hxx
      apply hhd
      have hupper : pyUpper hd.1 = pyUpper kc.1 := by
        rw [← hk1, ← hx]
        exact hxx
      rw [hupper]
      exact List.mem_map_of_mem _ hkc
    · have hne : ¬(x = pyUpper hd.1) := by
        intro hxx
        apply hhd
        rw [← hxx, hx]
        exact List.mem_map_of_mem _ hmemtl
      have hstep : ibanStep x acc hd = acc := by
        unfold ibanStep
        rw [if_neg hne]
      rw [List.foldl_cons, hstep]
      exact ih htl hmemtl acc

/-! ## Claim C2 -/

/-- Claim C2. On a checking-account batch (the loader always provides the
`IBAN` column), a transaction whose IBAN equals an `iban_rules` key
case-insensitively is unconditionally reassigned to that rule's category,
overriding whatever the keyword loop assigned; the hypothesis that the
uppercased rule keys are pairwise distinct reflects the rule store's data
model (a Python dict keyed by IBANs normalized to uppercase).  Card
batches never enter the IBAN block: their result is the keyword result. -/
theorem C2_iban_override_supremacy :
    (∀ (cfg : CategoriesConfig) (r : GiroRow) (k c : String),
      (cfg.ibanRules.map (fun kc => pyUpper kc.1)).Nodup →
      (k, c) ∈ cfg.ibanRules →
      pyUpper (r.IBAN.getD "") = pyUpper k →
      categorizeGiroRow cfg true r = c) ∧
    (∀ (cfg : CategoriesConfig) (r : VisaRow),
      categorizeVisaRow cfg r = applyKeywordRules cfg.rules (matchTextVisa r)) := by
  constructor
  · intro cfg r k c hnd hmem hx
    have hne : cfg.ibanRules.isEmpty = false := by
      cases hrl : cfg.ibanRules with
      | nil => rw [hrl] at hmem; cases hmem
      | cons hd tl => rfl
    unfold categorizeGiroRow applyIbanRules
    rw [if_pos rfl, hne]
    simp only [Bool.false_eq_true, if_false]
    exact ibanLoop_hit _ _ hnd k c hmem hx _
  · intro cfg r
    rfl

/-- Claim C2, witness. A payee matching keyword category `"A"` but with an
IBAN (in different case) matching an IBAN rule for `"Gehalt"` is
categorized `"Gehalt"`; the keyword loop alone would have said `"A"`. -/
theorem C2_witness :
    ((([("DE89", "Gehalt")] : List (String × String)).map (fun kc => pyUpper kc.1)).Nodup) ∧
    categorizeGiroRow ⟨[("A", ["rewe"])], [("DE89", "Gehalt")]⟩ true
      ⟨some "REWE", none, some "de89"⟩ = "Gehalt" ∧
    applyKeywordRules [("A", ["rewe"])]
      (matchTextGiro ⟨some "REWE", none, some "de89"⟩) = "A" :=
  ⟨by decide,
   C2_iban_override_supremacy.1 _ _ "DE89" "Gehalt" (by decide) (by decide) (by decide),
   by decide⟩

/-! ## Claim C3 -/

/-- Claim C3. `get_override_key` produces exactly the spec's current-key
string `"{date:YYYY-MM-DD}_{hash12}_{amount:.2f}"`, where `hash12` is the
first 12 hex characters of the MD5 digest of the full UTF-8-encoded
description; a missing date yields the literal `"unknown"` segment, a
missing description hashes the empty string, and a missing amount
formats as `"0.00"`. -/
theorem C3_current_key_matches_spec : ∀ row : TxRow, get_override_key row = specCurrentKey row :=
  fun _ => rfl

/-! ## Digest-length lemmas (for the key-divergence claim) -/

/-- The function `toLEBytes` produces exactly the requested number of bytes. -/
theorem toLEBytes_length (k : Nat) : ∀ n, (toLEBytes k n).length = k := by
  induction k with
  | zero => intro n; rfl
  | succ k ih => intro n; simp [toLEBytes, ih]

/-- An MD5 digest is 16 bytes. -/
theorem md5Bytes_length (msg : List Nat) : (md5Bytes msg).length = 16 := by
  unfold md5Bytes
  rcases (chunks64 (md5Pad msg)).foldl md5Chunk (1732584193, 4023233417, 2562383102, 271733878)
    with ⟨a, b, c, d⟩
  simp [toLEBytes_length]

/-- An MD5 hex digest is 32 characters. -/
theorem md5Hex_data_length (s : String) : (md5Hex s).data.length = 32 := by
  have hflat : ∀ l : List Nat, ((l.map byteToHex).flatten).length = 2 * l.length := by
    intro l
    induction l with
    | nil => rfl
    | cons h t ih => simp [byteToHex, ih]; omega
  show ((md5Bytes (utf8Bytes s)).map byteToHex).flatten.length = 32
  rw [hflat, md5Bytes_length]

/-- The `hash12` segment of a current key is always 12 characters. -/
theorem hash12_data_length (s : String) : (strTake (md5Hex s) 12).data.length = 12 := by
  show ((md5Hex s).data.take 12).length = 12
  rw [List.length_take, md5Hex_data_length]
  decide

/-- Two keys sharing date and amount segments agree exactly when their
middle segments (of equal length) agree. -/
theorem key_eq_iff_mid_eq (d m h1 h2 : String) (hlen : h1.data.length = h2.data.length) :
    d ++ "_" ++ h1 ++ "_" ++ m = d ++ "_" ++ h2 ++ "_" ++ m ↔ h1 = h2 := by
  constructor
  · intro h
    have hdata := congrArg String.data h
    simp only [String.data_append, List.append_assoc] at hdata
    have h1' := List.append_cancel_left hdata
    have h2' := List.append_cancel_left h1'
    exact String.ext (List.append_inj h2' hlen).1
  · intro h
    rw [h]

/-! ## Claim C6 -/

/-- Claim C6, counterexample. The claim asserts that any two transactions
agreeing on date, amount and the first 30 description characters but
differing beyond produce *different* current keys.  That would make the
first 48 bits of MD5 injective on such descriptions, which is false:
these two descriptions share their first 30 characters, differ after
them, and their MD5 digests agree on the first 12 hex characters, so the
current keys collide exactly like the legacy keys. -/
theorem C6_counterexample :
    strTake "AAAAAAAAAAAAAAAAAAAAAAAAAAAAAA13326714" 30
      = strTake "AAAAAAAAAAAAAAAAAAAAAAAAAAAAAA5453245" 30 ∧
    ("AAAAAAAAAAAAAAAAAAAAAAAAAAAAAA13326714" : String)
      ≠ "AAAAAAAAAAAAAAAAAAAAAAAAAAAAAA5453245" ∧
    get_legacy_override_key
        ⟨some ⟨2024, 1, 15⟩, some 10000, "Sonstiges", "Giro", "2024-01",
          some "AAAAAAAAAAAAAAAAAAAAAAAAAAAAAA13326714"⟩
      = get_legacy_override_key
        ⟨some ⟨2024, 1, 15⟩, some 10000, "Sonstiges", "Giro", "2024-01",
          some "AAAAAAAAAAAAAAAAAAAAAAAAAAAAAA5453245"⟩ ∧
    get_override_key
        ⟨some ⟨2024, 1, 15⟩, some 10000, "Sonstiges", "Giro", "2024-01",
          some "AAAAAAAAAAAAAAAAAAAAAAAAAAAAAA13326714"⟩
      = get_override_key
        ⟨some ⟨2024, 1, 15⟩, some 10000, "Sonstiges", "Giro", "2024-01",
          some "AAAAAAAAAAAAAAAAAAAAAAAAAAAAAA5453245"⟩ := by
  decide

/-- Claim C6, amended. Two transactions with equal date and amount whose
descriptions agree on their first 30 characters always produce the same
legacy key; their current keys are equal exactly when the first 12 hex
characters of the MD5 digests of the two descriptions are equal (which
fails — i.e. the keys diverge — for all but astronomically rare 48-bit
collisions such as the counterexample pair). -/
theorem C6_key_divergence (r1 r2 : TxRow)
    (hdat : r1.Datum = r2.Datum) (hbet : r1.Betrag = r2.Betrag)
    (h30 : strTake (r1.Beschreibung.getD "") 30 = strTake (r2.Beschreibung.getD "") 30) :
    get_legacy_override_key r1 = get_legacy_override_key r2 ∧
    (get_override_key r1 = get_override_key r2 ↔
      strTake (md5Hex (r1.Beschreibung.getD "")) 12
        = strTake (md5Hex (r2.Beschreibung.getD "")) 12) := by
  constructor
  · unfold get_legacy_override_key
    rw [hdat, hbet, h30]
  · unfold get_override_key
    rw [hdat, hbet]
    exact key_eq_iff_mid_eq _ _ _ _
      (by rw [hash12_data_length, hash12_data_length])

/-- Claim C6, witness. The repository's own collision scenario: 31-character
descriptions ending in `X` and `Y` share their 30-character prefix, get
the same legacy key, and (their truncated hashes differing) distinct
current keys. -/
theorem C6_witness :
    (get_legacy_override_key
        ⟨some ⟨2024, 1, 15⟩, some 10000, "Sonstiges", "Giro", "2024-01",
          some "AAAAAAAAAAAAAAAAAAAAAAAAAAAAAAX"⟩
      = get_legacy_override_key
        ⟨some ⟨2024, 1, 15⟩, some 10000, "Sonstiges", "Giro", "2024-01",
          some "AAAAAAAAAAAAAAAAAAAAAAAAAAAAAAY"⟩ ∧
    (get_override_key
        ⟨some ⟨2024, 1, 15⟩, some 10000, "Sonstiges", "Giro", "2024-01",
          some "AAAAAAAAAAAAAAAAAAAAAAAAAAAAAAX"⟩
      = get_override_key
        ⟨some ⟨2024, 1, 15⟩, some 10000, "Sonstiges", "Giro", "2024-01",
          some "AAAAAAAAAAAAAAAAAAAAAAAAAAAAAAY"⟩ ↔
      strTake (md5Hex "AAAAAAAAAAAAAAAAAAAAAAAAAAAAAAX") 12
        = strTake (md5Hex "AAAAAAAAAAAAAAAAAAAAAAAAAAAAAAY") 12)) ∧
    strTake (md5Hex "AAAAAAAAAAAAAAAAAAAAAAAAAAAAAAX") 12
      ≠ strTake (md5Hex "AAAAAAAAAAAAAAAAAAAAAAAAAAAAAAY") 12 :=
  ⟨C6_key_divergence _ _ rfl rfl (by decide), by decide⟩

/-! ## Claim C4 -/

/-- Claim C4. With a non-empty overrides mapping, every transaction's
category becomes `overrides[current_key]` if present, else
`overrides[legacy_key]` if present, else stays at its automatic category;
the step is the pure double lookup shown on the right-hand side (a
function of the overrides mapping and the row only — the keyword/IBAN
rules appear nowhere), and a row missing in both key forms is returned
unchanged. -/
theorem C4_overrides_pure_lookup :
    (∀ (ov : List (String × String)) (rows : List TxRow), ov ≠ [] →
      (applyOverrides ov rows).map (fun r => r.Kategorie)
        = rows.map (fun r =>
            (dictGet ov (get_override_key r)).getD
              ((dictGet ov (get_legacy_override_key r)).getD r.Kategorie))) ∧
    (∀ (ov : List (String × String)) (r : TxRow),
      dictGet ov (get_override_key r) = none →
      dictGet ov (get_legacy_override_key r) = none →
      overrideRow ov r = r) := by
  constructor
  · intro ov rows hov
    have hne : ov.isEmpty = false := by
      cases ov with
      | nil => exact absurd rfl hov
      | cons h t => rfl
    unfold applyOverrides
    rw [hne]
    simp only [Bool.false_eq_true, if_false, List.map_map]
    rfl
  · intro ov r h1 h2
    unfold overrideRow
    rw [h1, h2]
    rfl

/-- Claim C4, witness. A two-row batch where the first row's current key is
overridden, the second matches only in legacy form, instantiating the
lookup equation. -/
theorem C4_witness :
    (([("2024-01-15_68ba0a0d28bb_-45.99", "Lebensmittel")] : List (String × String)) ≠ []) ∧
    (applyOverrides [("2024-01-15_68ba0a0d28bb_-45.99", "Lebensmittel")]
        [⟨some ⟨2024, 1, 15⟩, some (-4599), "Sonstiges", "Giro", "2024-01",
          some "REWE SAGT DANKE"⟩]).map (fun r => r.Kategorie)
      = [⟨some ⟨2024, 1, 15⟩, some (-4599), "Sonstiges", "Giro", "2024-01",
          some "REWE SAGT DANKE"⟩].map (fun r =>
          (dictGet [("2024-01-15_68ba0a0d28bb_-45.99", "Lebensmittel")]
            (get_override_key r)).getD
            ((dictGet [("2024-01-15_68ba0a0d28bb_-45.99", "Lebensmittel")]
              (get_legacy_override_key r)).getD r.Kategorie)) ∧
    (applyOverrides [("2024-01-15_68ba0a0d28bb_-45.99", "Lebensmittel")]
        [⟨some ⟨2024, 1, 15⟩, some (-4599), "Sonstiges", "Giro", "2024-01",
          some "REWE SAGT DANKE"⟩]).map (fun r => r.Kategorie) = ["Lebensmittel"] :=
  ⟨by decide, C4_overrides_pure_lookup.1 _ _ (by decide), by decide⟩

/-! ## Claim C5 -/

/-- Claim C5. Settlement reclassification runs after manual overrides: any
transaction whose lower-cased description contains a configured
settlement pattern ends up categorized `"Kreditkarte"` in the assembled
view, regardless of what the override step (or anything before it)
assigned. -/
theorem C5_settlement_overrides_manual (ov : List (String × String))
    (ps : List String) (rows : List TxRow) (i : Nat) (hi : i < rows.length)
    (hj : i < (overridesThenSettlement ov ps rows).length)
    (hhit : settlementHit ps (rows.get ⟨i, hi⟩) = true) :
    ((overridesThenSettlement ov ps rows).get ⟨i, hj⟩).Kategorie = "Kreditkarte" := by
  have hsettle : ∀ r : TxRow, settlementHit ps r = true →
      (settleRow ps r).Kategorie = "Kreditkarte" := by
    intro r h
    unfold settleRow
    rw [if_pos h]
  by_cases hov : ov.isEmpty = true
  · have hpipe : overridesThenSettlement ov ps rows = rows.map (settleRow ps) := by
      unfold overridesThenSettlement applySettlement applyOverrides
      rw [if_pos hov]
    revert hj
    rw [hpipe]
    intro hj
    simp only [List.get_eq_getElem, List.getElem_map]
    exact hsettle _ (by simpa [List.get_eq_getElem] using hhit)
  · have hpipe : overridesThenSettlement ov ps rows
        = rows.map (fun r => settleRow ps (overrideRow ov r)) := by
      unfold overridesThenSettlement applySettlement applyOverrides
      rw [if_neg hov, List.map_map]
      rfl
    revert hj
    rw [hpipe]
    intro hj
    simp only [List.get_eq_getElem, List.getElem_map]
    exact hsettle _ (by simpa [List.get_eq_getElem] using hhit)

/-- Example row for the settlement-precedence witness: a credit-card bill
payment from the checking account. -/
def settlementExampleRow : TxRow :=
  ⟨some ⟨2024, 1, 15⟩, some (-5000), "Sonstiges", "Giro", "2024-01",
    some "KREDITKARTENABRECHNUNG VISA 1234"⟩

/-- Claim C5, witness. The spec's scenario: a transaction manually
overridden to `"Groceries"` whose description contains the default
settlement pattern ends up `"Kreditkarte"`, not `"Groceries"` (the middle
conjunct shows the override step alone would have produced
`"Groceries"`). -/
theorem C5_witness :
    settlementHit ["kreditkartenabrechnung", "ausgleich kreditkarte"]
      ([settlementExampleRow].get ⟨0, by decide⟩) = true ∧
    (applyOverrides [(get_override_key settlementExampleRow, "Groceries")]
        [settlementExampleRow]).map (fun r => r.Kategorie) = ["Groceries"] ∧
    ((overridesThenSettlement [(get_override_key settlementExampleRow, "Groceries")]
        ["kreditkartenabrechnung", "ausgleich kreditkarte"]
        [settlementExampleRow]).get ⟨0, by decide⟩).Kategorie = "Kreditkarte" :=
  ⟨by decide, by decide,
   C5_settlement_overrides_manual _ _ _ 0 (by decide) (by decide) (by decide)⟩

/-! ## Claim C10 -/

/-- The settlement step touches only the category field. -/
theorem settleRow_frame (ps : List String) (r : TxRow) :
    frameOf (settleRow ps r) = frameOf r := by
  unfold settleRow
  split <;> rfl

/-- The override step touches only the category field. -/
theorem overrideRow_frame (ov : List (String × String)) (r : TxRow) :
    frameOf (overrideRow ov r) = frameOf r :=
  rfl

/-- Claim C10. The manual-override and settlement steps are frame-
preserving: they keep the row count and leave every field other than
`Kategorie` (date, amount, account, month, description) exactly as the
normalization step produced it. -/
theorem C10_frame_preservation :
    ∀ (ov : List (String × String)) (ps : List String) (rows : List TxRow),
      (overridesThenSettlement ov ps rows).map frameOf = rows.map frameOf ∧
      (overridesThenSettlement ov ps rows).length = rows.length := by
  intro ov ps rows
  have hmap : (overridesThenSettlement ov ps rows).map frameOf = rows.map frameOf := by
    unfold overridesThenSettlement applySettlement applyOverrides
    split
    · rw [List.map_map]
      have hf : frameOf ∘ settleRow ps = frameOf := funext (fun r => settleRow_frame ps r)
      rw [hf]
    · rw [List.map_map, List.map_map]
      have hf : (frameOf ∘ settleRow ps) ∘ overrideRow ov = frameOf := by
        funext r
        show frameOf (settleRow ps (overrideRow ov r)) = frameOf r
        rw [settleRow_frame, overrideRow_frame]
      rw [hf]
  refine ⟨hmap, ?_⟩
  have hlen := congrArg List.length hmap
  simpa using hlen

/-! ## Range lemmas for the category invariant -/

/-- Each keyword-loop step keeps the accumulator or picks the current
rule's category. -/
theorem keywordStep_cases (desc cat : String) (cr : String × List String) :
    keywordStep desc cat cr = cat ∨ keywordStep desc cat cr = cr.1 := by
  unfold keywordStep
  split
  · left; rfl
  · split
    · right; rfl
    · left; rfl

/-- The keyword loop ends in its start category or one of the rule
categories. -/
theorem keywordLoop_mem (desc : String) (l : List (String × List String)) :
    ∀ acc, l.foldl (keywordStep desc) acc ∈ acc :: l.map Prod.fst := by
  induction l with
  | nil => intro acc; exact List.mem_cons_self _ _
  | cons hd tl ih =>
    intro acc
    rw [List.foldl_cons]
    rcases keywordStep_cases desc acc hd with h | h <;> rw [h]
    · have := ih acc
      simp only [List.map_cons, List.mem_cons] at this ⊢
      tauto
    · have := ih hd.1
      simp only [List.map_cons, List.mem_cons] at this ⊢
      tauto

/-- The IBAN loop ends in its start category or one of the IBAN-rule
categories. -/
theorem ibanLoop_mem (x : String) (l : List (String × String)) :
    ∀ acc, l.foldl (ibanStep x) acc ∈ acc :: l.map Prod.snd := by
  induction l with
  | nil => intro acc; exact List.mem_cons_self _ _
  | cons hd tl ih =>
    intro acc
    rw [List.foldl_cons]
    have hcases : ibanStep x acc hd = acc ∨ ibanStep x acc hd = hd.2 := by
      unfold ibanStep
      split
      · right; rfl
      · left; rfl
    rcases hcases with h | h <;> rw [h]
    · have := ih acc
      simp only [List.map_cons, List.mem_cons] at this ⊢
      tauto
    · have := ih hd.2
      simp only [List.map_cons, List.mem_cons] at this ⊢
      tauto

/-- A successful dict lookup returns one of the dict's values. -/
theorem dictGet_mem (d : List (String × String)) (k v : String)
    (h : dictGet d k = some v) : v ∈ d.map Prod.snd := by
  induction d with
  | nil => cases h
  | cons hd tl ih =>
    unfold dictGet at h
    split at h
    · cases h
      exact List.mem_cons_self _ _
    · exact List.mem_cons_of_mem _ (ih h)

/-! ## Claim C7 -/

/-- Claim C7, counterexample. The claim confines every category to the
configured rule categories plus the sentinel.  But IBAN rules (like
overrides and the settlement step) may carry free-form labels: with rules
`{"A": [...]}` and an IBAN rule mapping to `"Gehalt"`, a matching row is
categorized `"Gehalt"`, which is neither a rule category nor the
sentinel. -/
theorem C7_counterexample :
    categorizeGiroRow ⟨[("A", ["rewe"])], [("DE89", "Gehalt")]⟩ true
      ⟨some "REWE", none, some "DE89"⟩ = "Gehalt" ∧
    ("Gehalt" : String) ∉ (["A", "Sonstiges"] : List String) := by
  decide

/-- Claim C7, amended. After automatic categorization every category is a
configured rule category, an IBAN-rule category, or the sentinel
`"Sonstiges"` (for card batches: a rule category or the sentinel); after
the override and settlement steps every category is an input category, an
override value, or the settlement label `"Kreditkarte"`.  In particular
it is never null, and never empty unless the configuration itself
contains an empty label. -/
theorem C7_category_range :
    (∀ (cfg : CategoriesConfig) (hasIban : Bool) (r : GiroRow),
      categorizeGiroRow cfg hasIban r
        ∈ "Sonstiges" :: (cfg.rules.map Prod.fst ++ cfg.ibanRules.map Prod.snd)) ∧
    (∀ (cfg : CategoriesConfig) (r : VisaRow),
      categorizeVisaRow cfg r ∈ "Sonstiges" :: cfg.rules.map Prod.fst) ∧
    (∀ (ov : List (String × String)) (ps : List String) (rows : List TxRow),
      ∀ r ∈ overridesThenSettlement ov ps rows,
        r.Kategorie ∈ "Kreditkarte" :: (rows.map (fun t => t.Kategorie) ++ ov.map Prod.snd)) := by
  refine ⟨?_, ?_, ?_⟩
  · intro cfg hasIban r
    have hkw := keywordLoop_mem (matchTextGiro r) cfg.rules "Sonstiges"
    unfold categorizeGiroRow applyIbanRules applyKeywordRules
    have hbase : List.foldl (keywordStep (matchTextGiro r)) "Sonstiges" cfg.rules
        ∈ "Sonstiges" :: (cfg.rules.map Prod.fst ++ cfg.ibanRules.map Prod.snd) := by
      rcases List.mem_cons.mp hkw with h1 | h2
      · rw [h1]; exact List.mem_cons_self _ _
      · exact List.mem_cons_of_mem _ (List.mem_append_left _ h2)
    split
    · split
      · exact hbase
      · have hib := ibanLoop_mem (pyUpper (r.IBAN.getD "")) cfg.ibanRules
          (List.foldl (keywordStep (matchTextGiro r)) "Sonstiges" cfg.rules)
        rcases List.mem_cons.mp hib with hib1 | hib2
        · rw [hib1]; exact hbase
        · exact List.mem_cons_of_mem _ (List.mem_append_right _ hib2)
    · exact hbase
  · intro cfg r
    exact keywordLoop_mem (matchTextVisa r) cfg.rules "Sonstiges"
  · intro ov ps rows r hr
    unfold overridesThenSettlement applySettlement at hr
    rcases List.mem_map.mp hr with ⟨r2, hr2, rfl⟩
    unfold settleRow
    split
    · exact List.mem_cons_self _ _
    · apply List.mem_cons_of_mem
      unfold applyOverrides at hr2
      split at hr2
      · exact List.mem_append_left _ (List.mem_map_of_mem _ hr2)
      · rcases List.mem_map.mp hr2 with ⟨r3, hr3, rfl⟩
        show (dictGet ov (get_override_key r3)).getD
          ((dictGet ov (get_legacy_override_key r3)).getD r3.Kategorie) ∈ _
        cases h1 : dictGet ov (get_override_key r3) with
        | some c => exact List.mem_append_right _ (dictGet_mem _ _ _ h1)
        | none =>
          cases h2 : dictGet ov (get_legacy_override_key r3) with
          | some c => exact List.mem_append_right _ (dictGet_mem _ _ _ h2)
          | none => exact List.mem_append_left _ (List.mem_map_of_mem _ hr3)

/-- Claim C7, witness. A salary row with no matching override or settlement
pattern keeps its input category, which lies in the amended range. -/
theorem C7_witness :
    (⟨some ⟨2024, 1, 15⟩, some 100, "Gehalt", "Giro", "2024-01", some "Lohn"⟩ : TxRow).Kategorie
      ∈ "Kreditkarte" ::
        (([(⟨some ⟨2024, 1, 15⟩, some 100, "Gehalt", "Giro", "2024-01", some "Lohn"⟩ : TxRow)].map
            (fun t => t.Kategorie)) ++ ([("zzz", "Foo")].map Prod.snd)) :=
  C7_category_range.2.2 [("zzz", "Foo")] []
    [⟨some ⟨2024, 1, 15⟩, some 100, "Gehalt", "Giro", "2024-01", some "Lohn"⟩]
    ⟨some ⟨2024, 1, 15⟩, some 100, "Gehalt", "Giro", "2024-01", some "Lohn"⟩ (by decide)

/-! ## Stability lemmas for the descending sort -/

/-- Sanity: on the shape of pandas' own stable-descending regression test
(two equal-date pairs), the sort returns the most recent date first and
every tie in original input order. -/
theorem sortByDatumDesc_stable_example :
    sortByDatumDesc
        [⟨some ⟨2024, 1, 15⟩, some 100, "A", "Giro", "2024-01", some "first"⟩,
         ⟨some ⟨2024, 1, 15⟩, some 200, "B", "Visa", "2024-01", some "second"⟩,
         ⟨some ⟨2024, 1, 10⟩, some 300, "C", "Giro", "2024-01", some "a"⟩,
         ⟨some ⟨2024, 1, 10⟩, some 400, "D", "Visa", "2024-01", some "b"⟩]
      = [⟨some ⟨2024, 1, 15⟩, some 100, "A", "Giro", "2024-01", some "first"⟩,
         ⟨some ⟨2024, 1, 15⟩, some 200, "B", "Visa", "2024-01", some "second"⟩,
         ⟨some ⟨2024, 1, 10⟩, some 300, "C", "Giro", "2024-01", some "a"⟩,
         ⟨some ⟨2024, 1, 10⟩, some 400, "D", "Visa", "2024-01", some "b"⟩] := by
  decide

/-! ## Claim C9 -/

/-- Claim C9, counterexample. With an empty cluster configuration the code
returns the input series unchanged, so a null description propagates as
null — contradicting "never returns null for any position". -/
theorem C9_counterexample :
    apply_description_clusters [none] [] = [none] ∧
    none ∈ apply_description_clusters [none] [] := by
  decide

/-- Claim C9, amended. Whenever at least one cluster survives compilation
(a non-empty label with a non-empty pattern), the clustering function is
total: every position is the label of the first matching cluster, or the
description itself (with null read as `""`), and never null.  With no
compiled rules the input is returned unchanged, nulls included. -/
theorem C9_cluster_total (descs : List (Option String))
    (rules : List (String × List String))
    (h : compileClusterRules rules ≠ []) :
    apply_description_clusters descs rules
      = descs.map (fun d =>
          some (match (compileClusterRules rules).find?
              (fun lp => lp.2.any (fun p => patternMatches p (d.getD ""))) with
            | some lp => lp.1
            | none => d.getD "")) ∧
    ∀ x ∈ apply_description_clusters descs rules, x ≠ none := by
  have hne : (compileClusterRules rules).isEmpty = false := by
    cases hc : compileClusterRules rules with
    | nil => exact absurd hc h
    | cons a t => rfl
  have heq : apply_description_clusters descs rules
      = descs.map (fun d =>
          some (match (compileClusterRules rules).find?
              (fun lp => lp.2.any (fun p => patternMatches p (d.getD ""))) with
            | some lp => lp.1
            | none => d.getD "")) := by
    show (if (compileClusterRules rules).isEmpty then descs else _) = _
    rw [hne]
    simp only [Bool.false_eq_true, if_false]
  refine ⟨heq, ?_⟩
  intro x hx
  rw [heq] at hx
  rcases List.mem_map.mp hx with ⟨d, _, rfl⟩
  simp

/-- Claim C9, witness. A null description, a wildcard match and a
non-matching description: the null becomes `""`, the match gets its
cluster label, the miss is returned verbatim — no nulls. -/
theorem C9_witness :
    apply_description_clusters [none, some "SPOTIFY STOCKHOLM", some "Bakery"]
        [("Spotify", ["*spotify*"])]
      = [none, some "SPOTIFY STOCKHOLM", some "Bakery"].map (fun d =>
          some (match (compileClusterRules [("Spotify", ["*spotify*"])]).find?
              (fun lp => lp.2.any (fun p => patternMatches p (d.getD ""))) with
            | some lp => lp.1
            | none => d.getD "")) ∧
    apply_description_clusters [none, some "SPOTIFY STOCKHOLM", some "Bakery"]
        [("Spotify", ["*spotify*"])]
      = [some "", some "Spotify", some "Bakery"] :=
  ⟨(C9_cluster_total _ _ (by decide)).1, by decide⟩

end FinanceDashboard
